import Mathlib

/-
Verification of the essay-writer revision engine.

This file gives a shallow embedding of the Python sources of the
essay-writer-streamlit repository (src/core/schemas.py, src/core/prompts.py,
src/core/research.py, src/core/graph.py) and proves properties of the
embedded definitions.

Modelling conventions:
* Python dicts with a fixed key set (the LangGraph `AgentState` TypedDict and
  the per-node update dicts) are modelled by the structure `SD` whose fields
  are all `Option`-valued; a `none` field models an absent key, and LangGraph's
  merge of a node's returned update dict into the state (plain overwrite,
  no reducers are declared on `AgentState`) is `applyUpdate`.
* The completion provider (`ChatOpenAI.invoke` / `with_structured_output`)
  is abstracted as a deterministic `Provider`: one fixed planner response,
  and per-call-index responses for the generate and reflect nodes and for the
  structured query sets, matching a deterministic stub provider that returns
  fixed strings per call.  Prompt strings sent to the provider are not
  modelled; only the returned texts flow into the state.
* Python `int` counters that are always non-negative in every reachable state
  (`revision_number` starts at 1 and is only incremented; `max_revisions`
  comes from the UI slider bounded 0..5) are modelled as `Nat`; the
  `max_results` argument of `run_tavily_search`, for which out-of-range
  values are claim-relevant, is modelled as `Int`.
* `temperature` is a float in the source; no property depends on its value,
  so it is carried as an opaque integer-valued scalar.
-/

/-
Python's `str.strip()` with no argument: remove leading and trailing
whitespace.  Defined structurally over the character list so that it
evaluates inside the kernel.
-/
def pyStrip (s : String) : String :=
  String.mk (((s.data.dropWhile Char.isWhitespace).reverse.dropWhile Char.isWhitespace).reverse)

/-
core/schemas.py: `EssayRunConfig` (pydantic BaseModel).  Field defaults are
taken verbatim from the source.  `length_mode` is `Literal["Short", "Medium",
"Long", "Custom word count"]` in the source; pydantic construction fails
exactly when a field does not validate, and for this model the only
data-dependent validation is membership of `length_mode` in that literal set
(all other fields are plain typed fields with no validators declared).
-/
structure EssayRunConfig where
  model : String := "gpt-4o-mini"
  temperature : Int := 0
  tone : String := "Academic"
  audience : String := "General"
  paragraph_count : Nat := 5
  length_mode : String := "Medium"
  target_words : Option Int := none
  use_research : Bool := true
  max_results : Nat := 2
  max_revisions : Nat := 2
  show_intermediates : Bool := true
  task : String
deriving DecidableEq

/- The admissible values of the `LengthMode` literal type in core/schemas.py. -/
def lengthModeValues : List String :=
  ["Short", "Medium", "Long", "Custom word count"]

/-
Pydantic construction `EssayRunConfig(**cfg_dict)`: succeeds with the given
field values when they validate, otherwise raises a validation error.  The
model declares no custom validators (`core/schemas.py` lines 30-52), so the
only check that can fail on well-typed field values is the `length_mode`
literal membership.
-/
def mkEssayRunConfig (c : EssayRunConfig) : Except String EssayRunConfig :=
  if c.length_mode ∈ lengthModeValues then
    Except.ok c
  else
    Except.error "validation error: length_mode is not one of the Literal values"

/-
core/prompts.py: `build_length_instruction`.  The Python guard
`length_mode == "Custom word count" and target_words` uses truthiness of
`target_words`, so `None` and `0` both fall through to the generic fallback.
-/
def build_length_instruction (length_mode : String) (target_words : Option Int) : String :=
  if length_mode = "Short" then "Aim for ~400–600 words."
  else if length_mode = "Medium" then "Aim for ~700–1000 words."
  else if length_mode = "Long" then "Aim for ~1200–1800 words."
  else if length_mode = "Custom word count" ∧ target_words.getD 0 ≠ 0 then
    "Aim for about " ++ toString (target_words.getD 0) ++ " words (±10%)."
  else "Choose an appropriate length for the topic."

/-
core/research.py.  Errors raised by `run_tavily_search`: the `ValueError` on
an out-of-range `max_results` (modelled as `invalidArgument`) and the
`ResearchError` wrapping any provider failure.
-/
inductive SearchErr where
  | invalidArgument (msg : String)
  | researchError (msg : String)
deriving DecidableEq

/- One entry of the `results` list of a Tavily response dict. -/
structure TavilyResult where
  title : Option String := none
  url : Option String := none
  content : Option String := none
deriving DecidableEq

/- The Tavily response dict: optional synthesized `answer` plus ranked `results`. -/
structure TavilyResponse where
  answer : Option String := none
  results : List TavilyResult := []
deriving DecidableEq

/- core/research.py: the body of the `for` loop of `_format_tavily_response_to_notes`. -/
def formatResult (i : Nat) (r : TavilyResult) : String :=
  let title := pyStrip (r.title.getD "")
  let url := pyStrip (r.url.getD "")
  let content := pyStrip (r.content.getD "")
  let chunk := "**Result " ++ toString i ++ ": "
    ++ (if title = "" then "Untitled" else title) ++ "**\n"
  let chunk := if url ≠ "" then chunk ++ "- URL: " ++ url ++ "\n" else chunk
  let chunk := if content ≠ "" then chunk ++ "- Notes: " ++ content ++ "\n" else chunk
  pyStrip chunk

/- The `enumerate(results, start=1)` loop of `_format_tavily_response_to_notes`. -/
def formatResultsFrom : Nat → List TavilyResult → List String
  | _, [] => []
  | i, r :: rest => formatResult i r :: formatResultsFrom (i + 1) rest

/- core/research.py: `_format_tavily_response_to_notes`. -/
def formatTavilyResponseToNotes (resp : TavilyResponse) : List String :=
  let notes : List String :=
    match resp.answer with
    | some a => if pyStrip a ≠ "" then ["**Summary answer:** " ++ pyStrip a] else []
    | none => []
  notes ++ formatResultsFrom 1 resp.results

/-
core/research.py: `run_tavily_search`.  The network-facing call
`tavily_search_cached` (whose Streamlit cache is a pure optimisation) is
abstracted as the `provider` argument: `Except.ok` models a well-formed
response dict and `Except.error` models any raised provider failure
(auth, rate limit, network, missing secret), which the source wraps into
`ResearchError`.  Quantifying a statement over every `provider` expresses
that the function returns without invoking the provider.
-/
def run_tavily_search (provider : String → Int → Except String TavilyResponse)
    (query : String) (max_results : Int) : Except SearchErr (List String) :=
  let q := pyStrip query
  if q = "" then Except.ok []
  else if max_results < 1 ∨ max_results > 10 then
    Except.error (SearchErr.invalidArgument "max_results must be an integer between 1 and 10.")
  else
    match provider q max_results with
    | Except.ok resp => Except.ok (formatTavilyResponseToNotes resp)
    | Except.error e => Except.error (SearchErr.researchError ("Tavily search failed: " ++ e))

/-
core/graph.py.  The deterministic completion/search collaborators of one run.
`draftAt k` is the response of the k-th `generate` call (0-indexed),
`critiqueAt k` the response of the k-th `reflect` call, `planQueries` the
structured query set produced in `research_plan`, `critiqueQueriesAt k` the
structured query set produced by the k-th `research_critique` call, and
`searchNotes q n` the note list returned by `run_tavily_search(q, n)` inside
the research nodes.
-/
structure Provider where
  planResp : String
  draftAt : Nat → String
  critiqueAt : Nat → String
  planQueries : List String
  critiqueQueriesAt : Nat → List String
  searchNotes : String → Nat → List String

/-
The `AgentState` TypedDict of core/schemas.py together with the `thread_id`
key that `run_essay_stream` writes into its synthesized final-state dict.
A `none` field models an absent (`NotRequired`) key.  The same type also
models the per-node update dicts (all keys absent except the returned ones).
-/
structure SD where
  task : Option String := none
  plan : Option String := none
  draft : Option String := none
  critique : Option String := none
  content : Option (List String) := none
  revision_number : Option Nat := none
  max_revisions : Option Nat := none
  config : Option EssayRunConfig := none
  thread_id : Option String := none
deriving DecidableEq

/- Dict merge on one key: the update's value wins when the key is present. -/
def mergeField {α : Type} (s u : Option α) : Option α :=
  match u with
  | some v => some v
  | none => s

@[simp] theorem mergeField_none {α : Type} (s : Option α) : mergeField s none = s := rfl

@[simp] theorem mergeField_some {α : Type} (s : Option α) (v : α) :
    mergeField s (some v) = some v := rfl

/-
LangGraph's merge of a node's returned update dict into the channel state:
`AgentState` declares no reducers, so each returned key overwrites the state.
-/
def applyUpdate (st u : SD) : SD where
  task := mergeField st.task u.task
  plan := mergeField st.plan u.plan
  draft := mergeField st.draft u.draft
  critique := mergeField st.critique u.critique
  content := mergeField st.content u.content
  revision_number := mergeField st.revision_number u.revision_number
  max_revisions := mergeField st.max_revisions u.max_revisions
  config := mergeField st.config u.config
  thread_id := mergeField st.thread_id u.thread_id

/- `cfg_dict.get("use_research", True)` on `state.get("config", {})`. -/
def cfgUseResearch (st : SD) : Bool :=
  (st.config.map EssayRunConfig.use_research).getD true

/- `int(cfg_dict.get("max_results", 2))` on `state.get("config", {})`. -/
def cfgMaxResults (st : SD) : Nat :=
  (st.config.map EssayRunConfig.max_results).getD 2

/-
core/graph.py `plan_node`: builds the planner prompt and stores the raw
completion response as `plan`.  Only the returned update dict is modelled.
-/
def planNode (prov : Provider) (_st : SD) : SD :=
  { plan := some prov.planResp }

/-
The `for q in queries.queries` loop of the research nodes: one
`run_tavily_search` call per query, extending `content` with the returned
notes.  The second component counts the `run_tavily_search` invocations.
-/
def runQueries (prov : Provider) (max_results : Nat) :
    List String → List String → List String × Nat
  | [], content => (content, 0)
  | q :: rest, content =>
    let notes := prov.searchNotes q max_results
    let r := runQueries prov max_results rest (content ++ notes)
    (r.1, r.2 + 1)

/-
core/graph.py `research_plan_node`: passes `content` through unchanged when
research is disabled, otherwise asks for a structured query set and runs each
query through `run_tavily_search`.  The second component instruments the
number of `run_tavily_search` invocations performed by the node.
-/
def researchPlanNode (prov : Provider) (st : SD) : SD × Nat :=
  let content := st.content.getD []
  if !cfgUseResearch st then ({ content := some content }, 0)
  else
    let r := runQueries prov (cfgMaxResults st) prov.planQueries content
    ({ content := some r.1 }, r.2)

/-
core/graph.py `generation_node` (k-th invocation): stores the completion
response as `draft` and increments the revision counter,
`int(state.get("revision_number", 1)) + 1`.
-/
def generationNode (prov : Provider) (k : Nat) (st : SD) : SD :=
  { draft := some (prov.draftAt k)
    revision_number := some (st.revision_number.getD 1 + 1) }

/- core/graph.py `reflection_node` (k-th invocation): stores the critique. -/
def reflectionNode (prov : Provider) (k : Nat) (_st : SD) : SD :=
  { critique := some (prov.critiqueAt k) }

/-
core/graph.py `research_critique_node` (k-th invocation): passes `content`
through unchanged when research is disabled or the critique is blank,
otherwise extends `content` via one `run_tavily_search` call per structured
query.  The second component counts the `run_tavily_search` invocations.
-/
def researchCritiqueNode (prov : Provider) (k : Nat) (st : SD) : SD × Nat :=
  let content := st.content.getD []
  if !cfgUseResearch st then ({ content := some content }, 0)
  else if pyStrip (st.critique.getD "") = "" then ({ content := some content }, 0)
  else
    let r := runQueries prov (cfgMaxResults st) (prov.critiqueQueriesAt k) content
    ({ content := some r.1 }, r.2)

/-
core/graph.py `should_continue`: END when
`int(state.get("revision_number", 1)) > int(state.get("max_revisions", 2))`,
otherwise route to the `reflect` node.
-/
def shouldContinue (st : SD) : String :=
  if st.revision_number.getD 1 > st.max_revisions.getD 2 then "END" else "reflect"

@[simp] theorem shouldContinue_eq_reflect (st : SD) :
    (shouldContinue st = "reflect") = (st.revision_number.getD 1 ≤ st.max_revisions.getD 2) := by
  unfold shouldContinue
  split <;> rename_i h <;> simp <;> omega

/- One streamed chunk `{node_name: update_dict}` plus the instrumented search-call count. -/
structure Step where
  node : String
  update : SD
  calls : Nat
deriving DecidableEq

@[simp] theorem researchCritiqueNode_update_revision (prov : Provider) (k : Nat) (st : SD) :
    ((researchCritiqueNode prov k st).1).revision_number = none := by
  unfold researchCritiqueNode
  split
  · rfl
  · split <;> rfl

@[simp] theorem researchCritiqueNode_update_max (prov : Provider) (k : Nat) (st : SD) :
    ((researchCritiqueNode prov k st).1).max_revisions = none := by
  unfold researchCritiqueNode
  split
  · rfl
  · split <;> rfl

/-
The cycle `generate -> should_continue -> (END | reflect -> research_critique
-> generate -> ...)` of the compiled graph, entered from the `research_plan ->
generate` edge.  `k` indexes the generate/reflect/research_critique calls.
Each list entry is the streamed `{node_name: update_dict}` chunk of that node
(stream_mode="updates").  Termination: `generation_node` strictly increments
`revision_number` while `max_revisions` never changes, and `should_continue`
stops as soon as the counter exceeds the bound.
-/
def loop (prov : Provider) (k : Nat) (st : SD) : List Step :=
  let u1 := generationNode prov k st
  let st1 := applyUpdate st u1
  if shouldContinue st1 = "reflect" then
    let u2 := reflectionNode prov k st1
    let st2 := applyUpdate st1 u2
    let u3 := (researchCritiqueNode prov k st2).1
    let n3 := (researchCritiqueNode prov k st2).2
    let st3 := applyUpdate st2 u3
    ⟨"generate", u1, 0⟩ :: ⟨"reflect", u2, 0⟩ :: ⟨"research_critique", u3, n3⟩ :: loop prov (k + 1) st3
  else
    [⟨"generate", u1, 0⟩]
termination_by st.max_revisions.getD 2 + 1 - st.revision_number.getD 1
decreasing_by
  rename_i h
  unfold st1 u1 at h
  simp_all [applyUpdate, generationNode, reflectionNode]
  omega

/- The `initial_state` dict built by `run_essay` / `run_essay_stream`. -/
def initialState (cfg : EssayRunConfig) : SD :=
  { task := some cfg.task
    max_revisions := some cfg.max_revisions
    revision_number := some 1
    content := some []
    config := some cfg }

/-
The full sequence of per-node update chunks of one graph run:
planner -> research_plan -> generate -> (conditional cycle).
-/
def runSteps (prov : Provider) (cfg : EssayRunConfig) : List Step :=
  let st0 := initialState cfg
  let u1 := planNode prov st0
  let st1 := applyUpdate st0 u1
  let u2 := (researchPlanNode prov st1).1
  let n2 := (researchPlanNode prov st1).2
  let st2 := applyUpdate st1 u2
  ⟨"planner", u1, 0⟩ :: ⟨"research_plan", u2, n2⟩ :: loop prov 0 st2

/- Total number of `run_tavily_search` invocations performed during a run. -/
def totalSearchCalls (prov : Provider) (cfg : EssayRunConfig) : Nat :=
  ((runSteps prov cfg).map Step.calls).sum

/-
The history accumulator of the extraction loops of `run_essay` and
`run_essay_stream`: `plan`, `content_notes`, `drafts`, `critiques` with the
`last_draft` / `last_critique` trackers (both start as `None`).
-/
structure HistAcc where
  plan : String := ""
  content_notes : List String := []
  drafts : List String := []
  critiques : List String := []
  lastDraft : Option String := none
  lastCritique : Option String := none
deriving DecidableEq

/- `if isinstance(stt.get("plan"), str) and stt["plan"].strip(): plan = stt["plan"]`. -/
def stepPlan (acc : HistAcc) (s : SD) : HistAcc :=
  match s.plan with
  | some p => if pyStrip p = "" then acc else { acc with plan := p }
  | none => acc

/- `if isinstance(stt.get("content"), list): content_notes = stt["content"]`. -/
def stepContent (acc : HistAcc) (s : SD) : HistAcc :=
  match s.content with
  | some c => { acc with content_notes := c }
  | none => acc

/- The draft branch: append when non-blank and different from `last_draft`. -/
def stepDraft (acc : HistAcc) (s : SD) : HistAcc :=
  match s.draft with
  | some d =>
    if pyStrip d = "" then acc
    else if acc.lastDraft ≠ some d then
      { acc with drafts := acc.drafts ++ [d], lastDraft := some d }
    else acc
  | none => acc

/- The critique branch: append when non-blank and different from `last_critique`. -/
def stepCritique (acc : HistAcc) (s : SD) : HistAcc :=
  match s.critique with
  | some c =>
    if pyStrip c = "" then acc
    else if acc.lastCritique ≠ some c then
      { acc with critiques := acc.critiques ++ [c], lastCritique := some c }
    else acc
  | none => acc

/- One iteration of the extraction loop over a chunk (plan, content, draft, critique). -/
def foldStep (acc : HistAcc) (s : SD) : HistAcc :=
  stepCritique (stepDraft (stepContent (stepPlan acc s) s) s) s

/- The full extraction loop over a chunk sequence. -/
def foldChunks (acc : HistAcc) (chunks : List SD) : HistAcc :=
  chunks.foldl foldStep acc

/-
The chunks yielded by `graph.stream(initial_state, ...)` in its default
stream_mode="values": the full channel state after each executed node (the
input state itself is yielded first).  `_pull_state` is the identity on these
chunks, because a full state dict holds more than one key.
-/
def valuesStates : SD → List Step → List SD
  | _, [] => []
  | st, s :: rest =>
    let st' := applyUpdate st s.update
    st' :: valuesStates st' rest

/-
The `EssayRunResult` dataclass of core/graph.py restricted to the fields
determined by the run configuration and the provider responses.  `snapshots`
is recoverable as the chunk sequence (`valuesStates` respectively `runSteps`)
and `trace_id` is an opaque identifier minted by the tracing collaborator,
so neither is part of the compared value.
-/
structure EssayRunResult where
  final_state : SD
  drafts : List String
  critiques : List String
  plan : String
  content_notes : List String
deriving DecidableEq

/-
core/graph.py `run_essay` (batched mode): folds the streamed full-state
chunks into the history lists; `final_state` is the last chunk seen
(`{}` if none), normalized by `_pull_state`, which is the identity here.
-/
def runEssay (prov : Provider) (cfg : EssayRunConfig) : EssayRunResult :=
  let steps := runSteps prov cfg
  let chunks := initialState cfg :: valuesStates (initialState cfg) steps
  let acc := foldChunks {} chunks
  let finalState := chunks.foldl (fun _ c => c) ({} : SD)
  { final_state := finalState
    drafts := acc.drafts
    critiques := acc.critiques
    plan := acc.plan
    content_notes := acc.content_notes }

/-
core/graph.py `run_essay_stream` (streamed mode, stream_mode="updates"):
folds the per-node update dicts into the same history lists while yielding
them, then synthesizes its own final-state dict (including the `thread_id`
and a recomputed `revision_number` of `cfg.max_revisions + 1`).
`tid` is the thread id (`cfg_dict.get("thread_id") or str(uuid.uuid4())`).
-/
def runEssayStream (prov : Provider) (cfg : EssayRunConfig) (tid : String) : EssayRunResult :=
  let steps := runSteps prov cfg
  let acc := foldChunks {} (steps.map Step.update)
  let finalState : SD :=
    { task := some cfg.task
      plan := some acc.plan
      content := some acc.content_notes
      draft := some (acc.drafts.getLastD "")
      critique := some (acc.critiques.getLastD "")
      revision_number := some (cfg.max_revisions + 1)
      max_revisions := some cfg.max_revisions
      config := some cfg
      thread_id := some tid }
  { final_state := finalState
    drafts := acc.drafts
    critiques := acc.critiques
    plan := acc.plan
    content_notes := acc.content_notes }

/-
Closed form of `loop`, structurally recursive in the number `d` of remaining
reflect/research_critique cycles; used to compute with runs.
-/
def cyc (prov : Provider) : Nat → Nat → SD → List Step
  | 0, k, st => [⟨"generate", generationNode prov k st, 0⟩]
  | d + 1, k, st =>
    let u1 := generationNode prov k st
    let st1 := applyUpdate st u1
    let u2 := reflectionNode prov k st1
    let st2 := applyUpdate st1 u2
    let u3 := (researchCritiqueNode prov k st2).1
    let n3 := (researchCritiqueNode prov k st2).2
    let st3 := applyUpdate st2 u3
    ⟨"generate", u1, 0⟩ :: ⟨"reflect", u2, 0⟩ :: ⟨"research_critique", u3, n3⟩ :: cyc prov d (k + 1) st3

/- The drafts produced by `n` successive generate calls starting at call index `k`. -/
def draftList (prov : Provider) : Nat → Nat → List String
  | _, 0 => []
  | k, n + 1 => prov.draftAt k :: draftList prov (k + 1) n

/- The critiques produced by `n` successive reflect calls starting at call index `k`. -/
def critList (prov : Provider) : Nat → Nat → List String
  | _, 0 => []
  | k, n + 1 => prov.critiqueAt k :: critList prov (k + 1) n

section ProjectionLemmas

variable (prov : Provider) (k : Nat) (st u : SD)

@[simp] theorem applyUpdate_task : (applyUpdate st u).task = mergeField st.task u.task := rfl

@[simp] theorem applyUpdate_plan : (applyUpdate st u).plan = mergeField st.plan u.plan := rfl

@[simp] theorem applyUpdate_draft : (applyUpdate st u).draft = mergeField st.draft u.draft := rfl

@[simp] theorem applyUpdate_critique :
    (applyUpdate st u).critique = mergeField st.critique u.critique := rfl

@[simp] theorem applyUpdate_content :
    (applyUpdate st u).content = mergeField st.content u.content := rfl

@[simp] theorem applyUpdate_revision :
    (applyUpdate st u).revision_number = mergeField st.revision_number u.revision_number := rfl

@[simp] theorem applyUpdate_max :
    (applyUpdate st u).max_revisions = mergeField st.max_revisions u.max_revisions := rfl

@[simp] theorem applyUpdate_config :
    (applyUpdate st u).config = mergeField st.config u.config := rfl

@[simp] theorem applyUpdate_thread :
    (applyUpdate st u).thread_id = mergeField st.thread_id u.thread_id := rfl

@[simp] theorem planNode_plan : (planNode prov st).plan = some prov.planResp := rfl

@[simp] theorem planNode_draft : (planNode prov st).draft = none := rfl

@[simp] theorem planNode_critique : (planNode prov st).critique = none := rfl

@[simp] theorem planNode_content : (planNode prov st).content = none := rfl

@[simp] theorem planNode_revision : (planNode prov st).revision_number = none := rfl

@[simp] theorem planNode_max : (planNode prov st).max_revisions = none := rfl

@[simp] theorem planNode_config : (planNode prov st).config = none := rfl

@[simp] theorem generationNode_draft :
    (generationNode prov k st).draft = some (prov.draftAt k) := rfl

@[simp] theorem generationNode_revision :
    (generationNode prov k st).revision_number = some (st.revision_number.getD 1 + 1) := rfl

@[simp] theorem generationNode_plan : (generationNode prov k st).plan = none := rfl

@[simp] theorem generationNode_critique : (generationNode prov k st).critique = none := rfl

@[simp] theorem generationNode_content : (generationNode prov k st).content = none := rfl

@[simp] theorem generationNode_max : (generationNode prov k st).max_revisions = none := rfl

@[simp] theorem generationNode_config : (generationNode prov k st).config = none := rfl

@[simp] theorem reflectionNode_critique :
    (reflectionNode prov k st).critique = some (prov.critiqueAt k) := rfl

@[simp] theorem reflectionNode_plan : (reflectionNode prov k st).plan = none := rfl

@[simp] theorem reflectionNode_draft : (reflectionNode prov k st).draft = none := rfl

@[simp] theorem reflectionNode_content : (reflectionNode prov k st).content = none := rfl

@[simp] theorem reflectionNode_revision : (reflectionNode prov k st).revision_number = none := rfl

@[simp] theorem reflectionNode_max : (reflectionNode prov k st).max_revisions = none := rfl

@[simp] theorem reflectionNode_config : (reflectionNode prov k st).config = none := rfl

@[simp] theorem researchPlanNode_update_plan : ((researchPlanNode prov st).1).plan = none := by
  unfold researchPlanNode
  split <;> rfl

@[simp] theorem researchPlanNode_update_draft : ((researchPlanNode prov st).1).draft = none := by
  unfold researchPlanNode
  split <;> rfl

@[simp] theorem researchPlanNode_update_critique :
    ((researchPlanNode prov st).1).critique = none := by
  unfold researchPlanNode
  split <;> rfl

@[simp] theorem researchPlanNode_update_revision :
    ((researchPlanNode prov st).1).revision_number = none := by
  unfold researchPlanNode
  split <;> rfl

@[simp] theorem researchPlanNode_update_max :
    ((researchPlanNode prov st).1).max_revisions = none := by
  unfold researchPlanNode
  split <;> rfl

@[simp] theorem researchPlanNode_update_config :
    ((researchPlanNode prov st).1).config = none := by
  unfold researchPlanNode
  split <;> rfl

theorem researchPlanNode_update_content_isSome :
    ∃ c, ((researchPlanNode prov st).1).content = some c := by
  unfold researchPlanNode
  split
  · exact ⟨_, rfl⟩
  · exact ⟨_, rfl⟩

@[simp] theorem researchCritiqueNode_update_plan :
    ((researchCritiqueNode prov k st).1).plan = none := by
  unfold researchCritiqueNode
  split
  · rfl
  · split <;> rfl

@[simp] theorem researchCritiqueNode_update_draft :
    ((researchCritiqueNode prov k st).1).draft = none := by
  unfold researchCritiqueNode
  split
  · rfl
  · split <;> rfl

@[simp] theorem researchCritiqueNode_update_critique :
    ((researchCritiqueNode prov k st).1).critique = none := by
  unfold researchCritiqueNode
  split
  · rfl
  · split <;> rfl

@[simp] theorem researchCritiqueNode_update_config :
    ((researchCritiqueNode prov k st).1).config = none := by
  unfold researchCritiqueNode
  split
  · rfl
  · split <;> rfl

theorem researchCritiqueNode_update_content_isSome :
    ∃ c, ((researchCritiqueNode prov k st).1).content = some c := by
  unfold researchCritiqueNode
  split
  · exact ⟨_, rfl⟩
  · split
    · exact ⟨_, rfl⟩
    · exact ⟨_, rfl⟩

/- With research disabled both research nodes are content-preserving no-ops. -/
theorem researchPlanNode_research_off (h : cfgUseResearch st = false) :
    researchPlanNode prov st = ({ content := some (st.content.getD []) }, 0) := by
  unfold researchPlanNode
  rw [h]
  rfl

theorem researchCritiqueNode_research_off (h : cfgUseResearch st = false) :
    researchCritiqueNode prov k st = ({ content := some (st.content.getD []) }, 0) := by
  unfold researchCritiqueNode
  rw [h]
  rfl

end ProjectionLemmas

/-
`loop` agrees with its closed form `cyc` at the remaining-cycle count
`max_revisions - revision_number` read off the state.
-/
theorem loop_eq_cyc (prov : Provider) :
    ∀ (d k : Nat) (st : SD),
      st.max_revisions.getD 2 - st.revision_number.getD 1 = d →
      loop prov k st = cyc prov d k st := by
  intro d
  induction d with
  | zero =>
    intro k st h
    rw [loop, cyc]
    have hc : ¬ ((applyUpdate st (generationNode prov k st)).revision_number.getD 1 ≤
        (applyUpdate st (generationNode prov k st)).max_revisions.getD 2) := by
      simp
      omega
    simp only [shouldContinue_eq_reflect]
    rw [if_neg hc]
  | succ d ih =>
    intro k st h
    rw [loop, cyc]
    have hc : (applyUpdate st (generationNode prov k st)).revision_number.getD 1 ≤
        (applyUpdate st (generationNode prov k st)).max_revisions.getD 2 := by
      simp
      omega
    simp only [shouldContinue_eq_reflect]
    rw [if_pos hc]
    simp only [List.cons.injEq, true_and]
    apply ih
    simp
    omega

/- The state reaching the first `generate` call: after `planner` and `research_plan`. -/
def stateAfterResearch (prov : Provider) (cfg : EssayRunConfig) : SD :=
  applyUpdate (applyUpdate (initialState cfg) (planNode prov (initialState cfg)))
    (researchPlanNode prov (applyUpdate (initialState cfg) (planNode prov (initialState cfg)))).1

/- Closed form of the whole run trace. -/
theorem runSteps_eq (prov : Provider) (cfg : EssayRunConfig) :
    runSteps prov cfg =
      ⟨"planner", planNode prov (initialState cfg), 0⟩ ::
      ⟨"research_plan",
        (researchPlanNode prov (applyUpdate (initialState cfg) (planNode prov (initialState cfg)))).1,
        (researchPlanNode prov (applyUpdate (initialState cfg) (planNode prov (initialState cfg)))).2⟩ ::
      cyc prov (cfg.max_revisions - 1) 0 (stateAfterResearch prov cfg) := by
  unfold runSteps stateAfterResearch
  simp only [List.cons.injEq, true_and]
  apply loop_eq_cyc
  simp [initialState]

@[simp] theorem foldChunks_nil (acc : HistAcc) : foldChunks acc [] = acc := rfl

@[simp] theorem foldChunks_cons (acc : HistAcc) (s : SD) (l : List SD) :
    foldChunks acc (s :: l) = foldChunks (foldStep acc s) l := rfl

/- Extraction of a `generate` chunk: a fresh non-blank draft is appended. -/
theorem foldStep_gen (prov : Provider) (k : Nat) (st : SD) (acc : HistAcc)
    (hb : pyStrip (prov.draftAt k) ≠ "") (hl : acc.lastDraft ≠ some (prov.draftAt k)) :
    foldStep acc (generationNode prov k st) =
      { acc with drafts := acc.drafts ++ [prov.draftAt k], lastDraft := some (prov.draftAt k) } := by
  unfold foldStep stepPlan stepContent stepDraft stepCritique
  simp [hb, hl]

/- Extraction of a `reflect` chunk: a fresh non-blank critique is appended. -/
theorem foldStep_refl (prov : Provider) (k : Nat) (st : SD) (acc : HistAcc)
    (hb : pyStrip (prov.critiqueAt k) ≠ "") (hl : acc.lastCritique ≠ some (prov.critiqueAt k)) :
    foldStep acc (reflectionNode prov k st) =
      { acc with critiques := acc.critiques ++ [prov.critiqueAt k],
                 lastCritique := some (prov.critiqueAt k) } := by
  unfold foldStep stepPlan stepContent stepDraft stepCritique
  simp [hb, hl]

/- Extraction of a `research_critique` chunk: only `content_notes` is replaced. -/
theorem foldStep_rc (prov : Provider) (k : Nat) (st : SD) (acc : HistAcc) :
    foldStep acc ((researchCritiqueNode prov k st).1) =
      { acc with content_notes := ((researchCritiqueNode prov k st).1).content.getD [] } := by
  obtain ⟨c, hc⟩ := researchCritiqueNode_update_content_isSome prov k st
  unfold foldStep stepPlan stepContent stepDraft stepCritique
  simp [hc]

/- Extraction of a `research_plan` chunk: only `content_notes` is replaced. -/
theorem foldStep_rp (prov : Provider) (st : SD) (acc : HistAcc) :
    foldStep acc ((researchPlanNode prov st).1) =
      { acc with content_notes := ((researchPlanNode prov st).1).content.getD [] } := by
  obtain ⟨c, hc⟩ := researchPlanNode_update_content_isSome prov st
  unfold foldStep stepPlan stepContent stepDraft stepCritique
  simp [hc]

/- Extraction of a `planner` chunk: only `plan` can change. -/
theorem foldStep_planNode (prov : Provider) (st : SD) (acc : HistAcc) :
    ∃ p, foldStep acc (planNode prov st) = { acc with plan := p } := by
  unfold foldStep stepPlan stepContent stepDraft stepCritique
  by_cases h : pyStrip prov.planResp = ""
  · exact ⟨acc.plan, by simp [h]⟩
  · exact ⟨prov.planResp, by simp [h]⟩

/-
Folding the update chunks of the conditional cycle: with non-blank,
consecutively distinct provider drafts and critiques, the `d + 1` generate
chunks and `d` reflect chunks append exactly their responses.
-/
theorem fold_cyc (prov : Provider) :
    ∀ (d k : Nat) (st : SD) (acc : HistAcc),
      (∀ j, k ≤ j → j ≤ k + d → pyStrip (prov.draftAt j) ≠ "") →
      (∀ j, k ≤ j → j + 1 ≤ k + d → prov.draftAt j ≠ prov.draftAt (j + 1)) →
      acc.lastDraft ≠ some (prov.draftAt k) →
      (∀ j, k ≤ j → j + 1 ≤ k + d → pyStrip (prov.critiqueAt j) ≠ "") →
      (∀ j, k ≤ j → j + 2 ≤ k + d → prov.critiqueAt j ≠ prov.critiqueAt (j + 1)) →
      (d = 0 ∨ acc.lastCritique ≠ some (prov.critiqueAt k)) →
      (foldChunks acc ((cyc prov d k st).map Step.update)).drafts
          = acc.drafts ++ draftList prov k (d + 1) ∧
      (foldChunks acc ((cyc prov d k st).map Step.update)).critiques
          = acc.critiques ++ critList prov k d := by
  intro d
  induction d with
  | zero =>
    intro k st acc hb _hd h0 _hcb _hcd _hc0
    rw [cyc]
    simp only [List.map_cons, List.map_nil, foldChunks_cons, foldChunks_nil]
    rw [foldStep_gen prov k st acc (hb k le_rfl (by omega)) h0]
    simp [draftList, critList]
  | succ d ih =>
    intro k st acc hb hd h0 hcb hcd hc0
    have hc0' : acc.lastCritique ≠ some (prov.critiqueAt k) := by
      rcases hc0 with h | h
      · omega
      · exact h
    have key : ∀ (st' : SD) (A : HistAcc),
        A.drafts = acc.drafts ++ [prov.draftAt k] →
        A.critiques = acc.critiques ++ [prov.critiqueAt k] →
        A.lastDraft = some (prov.draftAt k) →
        A.lastCritique = some (prov.critiqueAt k) →
        (foldChunks A ((cyc prov d (k + 1) st').map Step.update)).drafts
            = acc.drafts ++ draftList prov k (d + 1 + 1) ∧
        (foldChunks A ((cyc prov d (k + 1) st').map Step.update)).critiques
            = acc.critiques ++ critList prov k (d + 1) := by
      intro st' A h1 h2 h3 h4
      have hres := ih (k + 1) st' A
        (fun j ha hb2 => hb j (by omega) (by omega))
        (fun j ha hb2 => hd j (by omega) (by omega))
        (by
          rw [h3]
          simp only [ne_eq, Option.some.injEq]
          exact hd k le_rfl (by omega))
        (fun j ha hb2 => hcb j (by omega) (by omega))
        (fun j ha hb2 => hcd j (by omega) (by omega))
        (by
          rcases Nat.eq_zero_or_pos d with hd0 | hd0
          · exact Or.inl hd0
          · refine Or.inr ?_
            rw [h4]
            simp only [ne_eq, Option.some.injEq]
            exact hcd k le_rfl (by omega))
      constructor
      · rw [hres.1, h1]
        simp [draftList]
      · rw [hres.2, h2]
        simp [critList]
    rw [cyc]
    simp only [List.map_cons, foldChunks_cons]
    rw [foldStep_gen prov k st acc (hb k le_rfl (by omega)) h0]
    rw [foldStep_refl prov k _
      { acc with drafts := acc.drafts ++ [prov.draftAt k], lastDraft := some (prov.draftAt k) }
      (hcb k le_rfl (by omega)) (by simpa using hc0')]
    rw [foldStep_rc]
    exact key _ _ rfl rfl rfl rfl

/-
The history lists extracted by the streamed run: with non-blank and
consecutively distinct provider responses, the drafts are exactly the
`max(max_revisions, 1)` generate responses and the critiques the
`max_revisions - 1` reflect responses.
-/
theorem streamFold_eq (prov : Provider) (cfg : EssayRunConfig)
    (hb : ∀ j, j < max cfg.max_revisions 1 → pyStrip (prov.draftAt j) ≠ "")
    (hd : ∀ j, j + 1 < max cfg.max_revisions 1 → prov.draftAt j ≠ prov.draftAt (j + 1))
    (hcb : ∀ j, j + 1 < max cfg.max_revisions 1 → pyStrip (prov.critiqueAt j) ≠ "")
    (hcd : ∀ j, j + 2 < max cfg.max_revisions 1 → prov.critiqueAt j ≠ prov.critiqueAt (j + 1)) :
    (foldChunks {} ((runSteps prov cfg).map Step.update)).drafts
        = draftList prov 0 (max cfg.max_revisions 1) ∧
    (foldChunks {} ((runSteps prov cfg).map Step.update)).critiques
        = critList prov 0 (cfg.max_revisions - 1) := by
  rw [runSteps_eq]
  simp only [List.map_cons, foldChunks_cons]
  obtain ⟨p, hp⟩ := foldStep_planNode prov (initialState cfg) {}
  rw [hp, foldStep_rp]
  have hres := fold_cyc prov (cfg.max_revisions - 1) 0 (stateAfterResearch prov cfg)
    { plan := p
      content_notes :=
        ((researchPlanNode prov (applyUpdate (initialState cfg)
          (planNode prov (initialState cfg)))).1).content.getD []
      drafts := []
      critiques := []
      lastDraft := none
      lastCritique := none }
    (fun j h1 h2 => hb j (by omega))
    (fun j h1 h2 => hd j (by omega))
    (by simp)
    (fun j h1 h2 => hcb j (by omega))
    (fun j h1 h2 => hcd j (by omega))
    (Or.inr (by simp))
  have hG : cfg.max_revisions - 1 + 1 = max cfg.max_revisions 1 := by omega
  rw [hG] at hres
  constructor
  · rw [hres.1]
    rfl
  · rw [hres.2]
    rfl

/- Each pass through the cycle contributes three steps plus the final generate. -/
theorem cyc_length (prov : Provider) :
    ∀ (d k : Nat) (st : SD), (cyc prov d k st).length = 3 * d + 1 := by
  intro d
  induction d with
  | zero =>
    intro k st
    rfl
  | succ d ih =>
    intro k st
    rw [cyc]
    simp only [List.length_cons, ih]
    omega

/- The revision counters `some (r+1), ..., some (r+n)` written by `n` generate calls. -/
def revList : Nat → Nat → List (Option Nat)
  | _, 0 => []
  | r, n + 1 => some (r + 1) :: revList (r + 1) n

/-
The generate steps of the cycle, in order, record the strictly increasing
revision counters starting from the state's current counter.
-/
theorem cyc_gen_revisions (prov : Provider) :
    ∀ (d k : Nat) (st : SD) (r : Nat), st.revision_number = some r →
      (((cyc prov d k st).filter (fun s => s.node = "generate")).map
          (fun s => s.update.revision_number)) = revList r (d + 1) := by
  intro d
  induction d with
  | zero =>
    intro k st r hr
    rw [cyc]
    simp [List.filter, revList, hr]
  | succ d ih =>
    intro k st r hr
    rw [cyc]
    have hst3 : (applyUpdate (applyUpdate (applyUpdate st (generationNode prov k st))
        (reflectionNode prov k (applyUpdate st (generationNode prov k st))))
        ((researchCritiqueNode prov k (applyUpdate (applyUpdate st (generationNode prov k st))
          (reflectionNode prov k (applyUpdate st (generationNode prov k st))))).1)).revision_number
        = some (r + 1) := by
      simp [hr]
    simp [List.filter_cons, ih _ _ _ hst3, revList, hr]

/- C5 support: the whole trace has exactly `2 + 3*(max_revisions - 1) + 1` steps. -/
theorem runSteps_length (prov : Provider) (cfg : EssayRunConfig) :
    (runSteps prov cfg).length = 3 * max cfg.max_revisions 1 := by
  rw [runSteps_eq]
  simp only [List.length_cons, cyc_length]
  omega

/- C5 support: the generate steps record revision counters 2, 3, ... in order. -/
theorem runSteps_gen_revisions (prov : Provider) (cfg : EssayRunConfig) :
    (((runSteps prov cfg).filter (fun s => s.node = "generate")).map
        (fun s => s.update.revision_number)) = revList 1 (max cfg.max_revisions 1) := by
  rw [runSteps_eq]
  have h2 : (stateAfterResearch prov cfg).revision_number = some 1 := by
    simp [stateAfterResearch, initialState]
  have h3 := cyc_gen_revisions prov (cfg.max_revisions - 1) 0 (stateAfterResearch prov cfg) 1 h2
  have h4 : cfg.max_revisions - 1 + 1 = max cfg.max_revisions 1 := by omega
  simp [List.filter_cons, h3, h4]

section StepBehavior

variable (acc Y Z : HistAcc) (s : SD) (p d c : String) (cs : List String)

theorem stepPlan_of_none (h : s.plan = none) : stepPlan acc s = acc := by
  unfold stepPlan
  rw [h]

theorem stepPlan_of_blank (h : s.plan = some p) (hb : pyStrip p = "") : stepPlan acc s = acc := by
  unfold stepPlan
  rw [h]
  simp [hb]

theorem stepPlan_of_set (h : s.plan = some p) (hb : pyStrip p ≠ "") :
    stepPlan acc s = { acc with plan := p } := by
  unfold stepPlan
  rw [h]
  simp [hb]

theorem stepContent_of_none (h : s.content = none) : stepContent acc s = acc := by
  unfold stepContent
  rw [h]

theorem stepContent_of_some (h : s.content = some cs) :
    stepContent acc s = { acc with content_notes := cs } := by
  unfold stepContent
  rw [h]

theorem stepDraft_of_none (h : s.draft = none) : stepDraft acc s = acc := by
  unfold stepDraft
  rw [h]

theorem stepDraft_of_blank (h : s.draft = some d) (hb : pyStrip d = "") : stepDraft acc s = acc := by
  unfold stepDraft
  rw [h]
  simp [hb]

theorem stepDraft_of_new (h : s.draft = some d) (hb : pyStrip d ≠ "")
    (hl : acc.lastDraft ≠ some d) :
    stepDraft acc s = { acc with drafts := acc.drafts ++ [d], lastDraft := some d } := by
  unfold stepDraft
  rw [h]
  simp [hb, hl]

theorem stepDraft_of_dup (h : s.draft = some d) (hl : acc.lastDraft = some d) :
    stepDraft acc s = acc := by
  unfold stepDraft
  rw [h]
  by_cases hb : pyStrip d = "" <;> simp [hb, hl]

theorem stepCritique_of_none (h : s.critique = none) : stepCritique acc s = acc := by
  unfold stepCritique
  rw [h]

theorem stepCritique_of_blank (h : s.critique = some c) (hb : pyStrip c = "") :
    stepCritique acc s = acc := by
  unfold stepCritique
  rw [h]
  simp [hb]

theorem stepCritique_of_new (h : s.critique = some c) (hb : pyStrip c ≠ "")
    (hl : acc.lastCritique ≠ some c) :
    stepCritique acc s = { acc with critiques := acc.critiques ++ [c], lastCritique := some c } := by
  unfold stepCritique
  rw [h]
  simp [hb, hl]

theorem stepCritique_of_dup (h : s.critique = some c) (hl : acc.lastCritique = some c) :
    stepCritique acc s = acc := by
  unfold stepCritique
  rw [h]
  by_cases hb : pyStrip c = "" <;> simp [hb, hl]

@[simp] theorem stepPlan_content_notes : (stepPlan acc s).content_notes = acc.content_notes := by
  unfold stepPlan
  repeat' split
  all_goals rfl

@[simp] theorem stepPlan_drafts : (stepPlan acc s).drafts = acc.drafts := by
  unfold stepPlan
  repeat' split
  all_goals rfl

@[simp] theorem stepPlan_critiques : (stepPlan acc s).critiques = acc.critiques := by
  unfold stepPlan
  repeat' split
  all_goals rfl

@[simp] theorem stepPlan_lastDraft : (stepPlan acc s).lastDraft = acc.lastDraft := by
  unfold stepPlan
  repeat' split
  all_goals rfl

@[simp] theorem stepPlan_lastCritique : (stepPlan acc s).lastCritique = acc.lastCritique := by
  unfold stepPlan
  repeat' split
  all_goals rfl

@[simp] theorem stepContent_plan : (stepContent acc s).plan = acc.plan := by
  unfold stepContent
  repeat' split
  all_goals rfl

@[simp] theorem stepContent_drafts : (stepContent acc s).drafts = acc.drafts := by
  unfold stepContent
  repeat' split
  all_goals rfl

@[simp] theorem stepContent_critiques : (stepContent acc s).critiques = acc.critiques := by
  unfold stepContent
  repeat' split
  all_goals rfl

@[simp] theorem stepContent_lastDraft : (stepContent acc s).lastDraft = acc.lastDraft := by
  unfold stepContent
  repeat' split
  all_goals rfl

@[simp] theorem stepContent_lastCritique : (stepContent acc s).lastCritique = acc.lastCritique := by
  unfold stepContent
  repeat' split
  all_goals rfl

@[simp] theorem stepDraft_plan : (stepDraft acc s).plan = acc.plan := by
  unfold stepDraft
  repeat' split
  all_goals rfl

@[simp] theorem stepDraft_content_notes : (stepDraft acc s).content_notes = acc.content_notes := by
  unfold stepDraft
  repeat' split
  all_goals rfl

@[simp] theorem stepDraft_critiques : (stepDraft acc s).critiques = acc.critiques := by
  unfold stepDraft
  repeat' split
  all_goals rfl

@[simp] theorem stepDraft_lastCritique : (stepDraft acc s).lastCritique = acc.lastCritique := by
  unfold stepDraft
  repeat' split
  all_goals rfl

@[simp] theorem stepCritique_plan : (stepCritique acc s).plan = acc.plan := by
  unfold stepCritique
  repeat' split
  all_goals rfl

@[simp] theorem stepCritique_content_notes :
    (stepCritique acc s).content_notes = acc.content_notes := by
  unfold stepCritique
  repeat' split
  all_goals rfl

@[simp] theorem stepCritique_drafts : (stepCritique acc s).drafts = acc.drafts := by
  unfold stepCritique
  repeat' split
  all_goals rfl

@[simp] theorem stepCritique_lastDraft : (stepCritique acc s).lastDraft = acc.lastDraft := by
  unfold stepCritique
  repeat' split
  all_goals rfl

/- The draft branch reads only `drafts` and `last_draft` of the accumulator. -/
theorem stepDraft_hist_congr (h1 : Y.drafts = Z.drafts) (h2 : Y.lastDraft = Z.lastDraft) :
    (stepDraft Y s).drafts = (stepDraft Z s).drafts ∧
    (stepDraft Y s).lastDraft = (stepDraft Z s).lastDraft := by
  unfold stepDraft
  cases hd : s.draft with
  | none => exact ⟨h1, h2⟩
  | some d =>
    by_cases hb : pyStrip d = ""
    · simpa [hb] using ⟨h1, h2⟩
    · by_cases hl : Y.lastDraft = some d
      · have hlZ : Z.lastDraft = some d := h2 ▸ hl
        simp [hb, hl, hlZ, h1, h2]
      · have hlZ : ¬ Z.lastDraft = some d := by
          rw [← h2]
          exact hl
        simp [hb, hl, hlZ, h1, h2]

/- The critique branch reads only `critiques` and `last_critique`. -/
theorem stepCritique_hist_congr (h1 : Y.critiques = Z.critiques)
    (h2 : Y.lastCritique = Z.lastCritique) :
    (stepCritique Y s).critiques = (stepCritique Z s).critiques ∧
    (stepCritique Y s).lastCritique = (stepCritique Z s).lastCritique := by
  unfold stepCritique
  cases hc : s.critique with
  | none => exact ⟨h1, h2⟩
  | some c =>
    by_cases hb : pyStrip c = ""
    · simpa [hb] using ⟨h1, h2⟩
    · by_cases hl : Y.lastCritique = some c
      · have hlZ : Z.lastCritique = some c := h2 ▸ hl
        simp [hb, hl, hlZ, h1, h2]
      · have hlZ : ¬ Z.lastCritique = some c := by
          rw [← h2]
          exact hl
        simp [hb, hl, hlZ, h1, h2]

/- The extraction step decomposes componentwise through the four branches. -/
theorem foldStep_drafts_eq :
    (foldStep acc s).drafts = (stepDraft acc s).drafts ∧
    (foldStep acc s).lastDraft = (stepDraft acc s).lastDraft := by
  unfold foldStep
  have h := stepDraft_hist_congr (stepContent (stepPlan acc s) s) acc s (by simp) (by simp)
  constructor
  · rw [stepCritique_drafts]
    exact h.1
  · rw [stepCritique_lastDraft]
    exact h.2

theorem foldStep_critiques_eq :
    (foldStep acc s).critiques = (stepCritique acc s).critiques ∧
    (foldStep acc s).lastCritique = (stepCritique acc s).lastCritique := by
  unfold foldStep
  exact stepCritique_hist_congr (stepDraft (stepContent (stepPlan acc s) s) s) acc s
    (by simp) (by simp)

theorem foldStep_plan_eq : (foldStep acc s).plan = (stepPlan acc s).plan := by
  unfold foldStep
  rw [stepCritique_plan, stepDraft_plan, stepContent_plan]

theorem foldStep_content_notes_eq :
    (foldStep acc s).content_notes = (stepContent (stepPlan acc s) s).content_notes := by
  unfold foldStep
  rw [stepCritique_content_notes, stepDraft_content_notes]

end StepBehavior

/-
The extraction invariant relating a full channel state to the accumulator:
whenever a non-blank value is present in the state, the accumulator has
already recorded it.  It holds initially and is preserved by every chunk,
which is what makes folding full-state chunks (run_essay, values mode) agree
with folding update chunks (run_essay_stream, updates mode).
-/
def ExtractInv (st : SD) (acc : HistAcc) : Prop :=
  (∀ p, st.plan = some p → pyStrip p ≠ "" → acc.plan = p) ∧
  (∀ cs, st.content = some cs → acc.content_notes = cs) ∧
  (∀ d, st.draft = some d → pyStrip d ≠ "" → acc.lastDraft = some d) ∧
  (∀ c, st.critique = some c → pyStrip c ≠ "" → acc.lastCritique = some c)

theorem stepPlan_noop (st : SD) (acc : HistAcc)
    (h : ∀ p, st.plan = some p → pyStrip p ≠ "" → acc.plan = p) : stepPlan acc st = acc := by
  cases hp : st.plan with
  | none => exact stepPlan_of_none acc st hp
  | some p =>
    by_cases hb : pyStrip p = ""
    · exact stepPlan_of_blank acc st p hp hb
    · rw [stepPlan_of_set acc st p hp hb, ← h p hp hb]

theorem stepContent_noop (st : SD) (acc : HistAcc)
    (h : ∀ cs, st.content = some cs → acc.content_notes = cs) : stepContent acc st = acc := by
  cases hc : st.content with
  | none => exact stepContent_of_none acc st hc
  | some cs => rw [stepContent_of_some acc st cs hc, ← h cs hc]

theorem stepDraft_noop (st : SD) (acc : HistAcc)
    (h : ∀ d, st.draft = some d → pyStrip d ≠ "" → acc.lastDraft = some d) :
    stepDraft acc st = acc := by
  cases hd : st.draft with
  | none => exact stepDraft_of_none acc st hd
  | some d =>
    by_cases hb : pyStrip d = ""
    · exact stepDraft_of_blank acc st d hd hb
    · exact stepDraft_of_dup acc st d hd (h d hd hb)

theorem stepCritique_noop (st : SD) (acc : HistAcc)
    (h : ∀ c, st.critique = some c → pyStrip c ≠ "" → acc.lastCritique = some c) :
    stepCritique acc st = acc := by
  cases hc : st.critique with
  | none => exact stepCritique_of_none acc st hc
  | some c =>
    by_cases hb : pyStrip c = ""
    · exact stepCritique_of_blank acc st c hc hb
    · exact stepCritique_of_dup acc st c hc (h c hc hb)

/- A full-state chunk satisfying the invariant is absorbed without change. -/
theorem foldStep_state_noop (st : SD) (acc : HistAcc) (h : ExtractInv st acc) :
    foldStep acc st = acc := by
  obtain ⟨h1, h2, h3, h4⟩ := h
  unfold foldStep
  rw [stepPlan_noop st acc h1, stepContent_noop st acc h2, stepDraft_noop st acc h3,
    stepCritique_noop st acc h4]

theorem stepPlan_merge (st u : SD) (acc : HistAcc)
    (h : ∀ p, st.plan = some p → pyStrip p ≠ "" → acc.plan = p) :
    stepPlan acc (applyUpdate st u) = stepPlan acc u := by
  cases hu : u.plan with
  | some p =>
    have hm : (applyUpdate st u).plan = some p := by simp [hu]
    by_cases hb : pyStrip p = ""
    · rw [stepPlan_of_blank acc _ p hm hb, stepPlan_of_blank acc u p hu hb]
    · rw [stepPlan_of_set acc _ p hm hb, stepPlan_of_set acc u p hu hb]
  | none =>
    have hm : (applyUpdate st u).plan = st.plan := by simp [hu]
    rw [stepPlan_of_none acc u hu]
    apply stepPlan_noop
    intro p hp hb
    exact h p (hm ▸ hp) hb

theorem stepContent_merge (st u : SD) (acc : HistAcc)
    (h : ∀ cs, st.content = some cs → acc.content_notes = cs) :
    stepContent acc (applyUpdate st u) = stepContent acc u := by
  cases hu : u.content with
  | some cs =>
    have hm : (applyUpdate st u).content = some cs := by simp [hu]
    rw [stepContent_of_some acc _ cs hm, stepContent_of_some acc u cs hu]
  | none =>
    have hm : (applyUpdate st u).content = st.content := by simp [hu]
    rw [stepContent_of_none acc u hu]
    apply stepContent_noop
    intro cs hc
    exact h cs (hm ▸ hc)

theorem stepDraft_merge (st u : SD) (acc : HistAcc)
    (h : ∀ d, st.draft = some d → pyStrip d ≠ "" → acc.lastDraft = some d) :
    stepDraft acc (applyUpdate st u) = stepDraft acc u := by
  cases hu : u.draft with
  | some d =>
    have hm : (applyUpdate st u).draft = some d := by simp [hu]
    by_cases hb : pyStrip d = ""
    · rw [stepDraft_of_blank acc _ d hm hb, stepDraft_of_blank acc u d hu hb]
    · by_cases hl : acc.lastDraft = some d
      · rw [stepDraft_of_dup acc _ d hm hl, stepDraft_of_dup acc u d hu hl]
      · rw [stepDraft_of_new acc _ d hm hb hl, stepDraft_of_new acc u d hu hb hl]
  | none =>
    have hm : (applyUpdate st u).draft = st.draft := by simp [hu]
    rw [stepDraft_of_none acc u hu]
    apply stepDraft_noop
    intro d hd hb
    exact h d (hm ▸ hd) hb

theorem stepCritique_merge (st u : SD) (acc : HistAcc)
    (h : ∀ c, st.critique = some c → pyStrip c ≠ "" → acc.lastCritique = some c) :
    stepCritique acc (applyUpdate st u) = stepCritique acc u := by
  cases hu : u.critique with
  | some c =>
    have hm : (applyUpdate st u).critique = some c := by simp [hu]
    by_cases hb : pyStrip c = ""
    · rw [stepCritique_of_blank acc _ c hm hb, stepCritique_of_blank acc u c hu hb]
    · by_cases hl : acc.lastCritique = some c
      · rw [stepCritique_of_dup acc _ c hm hl, stepCritique_of_dup acc u c hu hl]
      · rw [stepCritique_of_new acc _ c hm hb hl, stepCritique_of_new acc u c hu hb hl]
  | none =>
    have hm : (applyUpdate st u).critique = st.critique := by simp [hu]
    rw [stepCritique_of_none acc u hu]
    apply stepCritique_noop
    intro c hc hb
    exact h c (hm ▸ hc) hb

/- Folding the merged state is the same as folding the update, under the invariant. -/
theorem foldStep_merge (st u : SD) (acc : HistAcc) (h : ExtractInv st acc) :
    foldStep acc (applyUpdate st u) = foldStep acc u := by
  obtain ⟨h1, h2, h3, h4⟩ := h
  unfold foldStep
  rw [stepPlan_merge st u acc h1]
  rw [stepContent_merge st u (stepPlan acc u) (by
    intro cs hc
    rw [stepPlan_content_notes]
    exact h2 cs hc)]
  rw [stepDraft_merge st u (stepContent (stepPlan acc u) u) (by
    intro d hd hb
    rw [stepContent_lastDraft, stepPlan_lastDraft]
    exact h3 d hd hb)]
  rw [stepCritique_merge st u (stepDraft (stepContent (stepPlan acc u) u) u) (by
    intro c hc hb
    rw [stepDraft_lastCritique, stepContent_lastCritique, stepPlan_lastCritique]
    exact h4 c hc hb)]

/- The invariant is preserved by merging an update and folding it. -/
theorem ExtractInv_preserved (st u : SD) (acc : HistAcc) (h : ExtractInv st acc) :
    ExtractInv (applyUpdate st u) (foldStep acc u) := by
  obtain ⟨h1, h2, h3, h4⟩ := h
  refine ⟨?_, ?_, ?_, ?_⟩
  · intro p hp hb
    rw [foldStep_plan_eq]
    cases hu : u.plan with
    | some q =>
      have hq : q = p := by
        rw [applyUpdate_plan, hu, mergeField_some] at hp
        exact Option.some.inj hp
      subst hq
      rw [stepPlan_of_set acc u q hu hb]
    | none =>
      rw [applyUpdate_plan, hu, mergeField_none] at hp
      rw [stepPlan_of_none acc u hu]
      exact h1 p hp hb
  · intro cs hc
    rw [foldStep_content_notes_eq]
    cases hu : u.content with
    | some cs' =>
      have hq : cs' = cs := by
        rw [applyUpdate_content, hu, mergeField_some] at hc
        exact Option.some.inj hc
      subst hq
      rw [stepContent_of_some (stepPlan acc u) u cs' hu]
    | none =>
      rw [applyUpdate_content, hu, mergeField_none] at hc
      rw [stepContent_of_none (stepPlan acc u) u hu, stepPlan_content_notes]
      exact h2 cs hc
  · intro d hd hb
    rw [(foldStep_drafts_eq acc u).2]
    cases hu : u.draft with
    | some d' =>
      have hq : d' = d := by
        rw [applyUpdate_draft, hu, mergeField_some] at hd
        exact Option.some.inj hd
      subst hq
      by_cases hl : acc.lastDraft = some d'
      · rw [stepDraft_of_dup acc u d' hu hl]
        exact hl
      · rw [stepDraft_of_new acc u d' hu hb hl]
    | none =>
      rw [applyUpdate_draft, hu, mergeField_none] at hd
      rw [stepDraft_of_none acc u hu]
      exact h3 d hd hb
  · intro c hc hb
    rw [(foldStep_critiques_eq acc u).2]
    cases hu : u.critique with
    | some c' =>
      have hq : c' = c := by
        rw [applyUpdate_critique, hu, mergeField_some] at hc
        exact Option.some.inj hc
      subst hq
      by_cases hl : acc.lastCritique = some c'
      · rw [stepCritique_of_dup acc u c' hu hl]
        exact hl
      · rw [stepCritique_of_new acc u c' hu hb hl]
    | none =>
      rw [applyUpdate_critique, hu, mergeField_none] at hc
      rw [stepCritique_of_none acc u hu]
      exact h4 c hc hb

/-
Folding values-mode chunks equals folding updates-mode chunks: the full-state
chunks only repeat what the accumulator already recorded.
-/
theorem fold_values_eq (steps : List Step) :
    ∀ (st : SD) (acc : HistAcc), ExtractInv st acc →
      foldChunks acc (valuesStates st steps) = foldChunks acc (steps.map Step.update) := by
  induction steps with
  | nil =>
    intro st acc _
    rfl
  | cons s rest ih =>
    intro st acc h
    rw [valuesStates]
    simp only [List.map_cons, foldChunks_cons]
    rw [foldStep_merge st s.update acc h]
    exact ih (applyUpdate st s.update) (foldStep acc s.update)
      (ExtractInv_preserved st s.update acc h)

/- The invariant holds between the initial state and the empty accumulator. -/
theorem ExtractInv_initial (cfg : EssayRunConfig) : ExtractInv (initialState cfg) {} := by
  refine ⟨?_, ?_, ?_, ?_⟩
  · intro p hp
    simp [initialState] at hp
  · intro cs hc
    simp [initialState] at hc
    simp [hc.symm]
  · intro d hd
    simp [initialState] at hd
  · intro c hc
    simp [initialState] at hc

/- The two invocation modes extract identical history accumulators. -/
theorem runFold_values_eq_updates (prov : Provider) (cfg : EssayRunConfig) :
    foldChunks {} (initialState cfg :: valuesStates (initialState cfg) (runSteps prov cfg))
      = foldChunks {} ((runSteps prov cfg).map Step.update) := by
  rw [foldChunks_cons, foldStep_state_noop (initialState cfg) {} (ExtractInv_initial cfg)]
  exact fold_values_eq (runSteps prov cfg) (initialState cfg) {} (ExtractInv_initial cfg)

/- Definitional unfoldings used to evaluate runs at concrete inputs. -/
theorem runEssay_unfold (prov : Provider) (cfg : EssayRunConfig) :
    runEssay prov cfg =
      { final_state :=
          (initialState cfg :: valuesStates (initialState cfg) (runSteps prov cfg)).foldl
            (fun _ c => c) {}
        drafts :=
          (foldChunks {} (initialState cfg :: valuesStates (initialState cfg)
            (runSteps prov cfg))).drafts
        critiques :=
          (foldChunks {} (initialState cfg :: valuesStates (initialState cfg)
            (runSteps prov cfg))).critiques
        plan :=
          (foldChunks {} (initialState cfg :: valuesStates (initialState cfg)
            (runSteps prov cfg))).plan
        content_notes :=
          (foldChunks {} (initialState cfg :: valuesStates (initialState cfg)
            (runSteps prov cfg))).content_notes } := rfl

theorem runEssayStream_unfold (prov : Provider) (cfg : EssayRunConfig) (tid : String) :
    runEssayStream prov cfg tid =
      { final_state :=
          { task := some cfg.task
            plan := some (foldChunks {} ((runSteps prov cfg).map Step.update)).plan
            content := some (foldChunks {} ((runSteps prov cfg).map Step.update)).content_notes
            draft := some ((foldChunks {} ((runSteps prov cfg).map Step.update)).drafts.getLastD "")
            critique :=
              some ((foldChunks {} ((runSteps prov cfg).map Step.update)).critiques.getLastD "")
            revision_number := some (cfg.max_revisions + 1)
            max_revisions := some cfg.max_revisions
            config := some cfg
            thread_id := some tid }
        drafts := (foldChunks {} ((runSteps prov cfg).map Step.update)).drafts
        critiques := (foldChunks {} ((runSteps prov cfg).map Step.update)).critiques
        plan := (foldChunks {} ((runSteps prov cfg).map Step.update)).plan
        content_notes := (foldChunks {} ((runSteps prov cfg).map Step.update)).content_notes } := rfl

/-
The adjacent-distinctness invariant of the extracted histories: the tracker
always equals the last recorded entry, and no two adjacent entries coincide.
-/
def ChainInv (acc : HistAcc) : Prop :=
  acc.drafts.Chain' (· ≠ ·) ∧ acc.lastDraft = acc.drafts.getLast? ∧
  acc.critiques.Chain' (· ≠ ·) ∧ acc.lastCritique = acc.critiques.getLast?

theorem ChainInv_empty : ChainInv {} := by
  refine ⟨List.chain'_nil, rfl, List.chain'_nil, rfl⟩

theorem chain_append_last (l : List String) (d : String) (hch : l.Chain' (· ≠ ·))
    (hne : l.getLast? ≠ some d) :
    (l ++ [d]).Chain' (· ≠ ·) ∧ (l ++ [d]).getLast? = some d := by
  constructor
  · rw [List.chain'_append]
    refine ⟨hch, List.chain'_singleton d, ?_⟩
    intro x hx y hy
    simp only [List.head?_cons, Option.mem_def, Option.some.injEq] at hy
    subst hy
    intro hxy
    subst hxy
    exact hne hx
  · rw [List.getLast?_append]
    rfl

theorem ChainInv_foldStep (acc : HistAcc) (s : SD) (h : ChainInv acc) :
    ChainInv (foldStep acc s) := by
  obtain ⟨hd1, hd2, hc1, hc2⟩ := h
  have hD := foldStep_drafts_eq acc s
  have hC := foldStep_critiques_eq acc s
  have hdraft : (stepDraft acc s).drafts.Chain' (· ≠ ·) ∧
      (stepDraft acc s).lastDraft = (stepDraft acc s).drafts.getLast? := by
    cases hsd : s.draft with
    | none =>
      rw [stepDraft_of_none acc s hsd]
      exact ⟨hd1, hd2⟩
    | some d =>
      by_cases hb : pyStrip d = ""
      · rw [stepDraft_of_blank acc s d hsd hb]
        exact ⟨hd1, hd2⟩
      · by_cases hl : acc.lastDraft = some d
        · rw [stepDraft_of_dup acc s d hsd hl]
          exact ⟨hd1, hd2⟩
        · rw [stepDraft_of_new acc s d hsd hb hl]
          have := chain_append_last acc.drafts d hd1 (by rw [← hd2]; exact hl)
          exact ⟨this.1, this.2.symm⟩
  have hcrit : (stepCritique acc s).critiques.Chain' (· ≠ ·) ∧
      (stepCritique acc s).lastCritique = (stepCritique acc s).critiques.getLast? := by
    cases hsc : s.critique with
    | none =>
      rw [stepCritique_of_none acc s hsc]
      exact ⟨hc1, hc2⟩
    | some c =>
      by_cases hb : pyStrip c = ""
      · rw [stepCritique_of_blank acc s c hsc hb]
        exact ⟨hc1, hc2⟩
      · by_cases hl : acc.lastCritique = some c
        · rw [stepCritique_of_dup acc s c hsc hl]
          exact ⟨hc1, hc2⟩
        · rw [stepCritique_of_new acc s c hsc hb hl]
          have := chain_append_last acc.critiques c hc1 (by rw [← hc2]; exact hl)
          exact ⟨this.1, this.2.symm⟩
  refine ⟨?_, ?_, ?_, ?_⟩
  · rw [hD.1]
    exact hdraft.1
  · rw [hD.1, hD.2]
    exact hdraft.2
  · rw [hC.1]
    exact hcrit.1
  · rw [hC.1, hC.2]
    exact hcrit.2

theorem ChainInv_foldChunks (chunks : List SD) :
    ∀ acc : HistAcc, ChainInv acc → ChainInv (foldChunks acc chunks) := by
  induction chunks with
  | nil =>
    intro acc h
    exact h
  | cons s rest ih =>
    intro acc h
    rw [foldChunks_cons]
    exact ih (foldStep acc s) (ChainInv_foldStep acc s h)

theorem cfgUseResearch_some (cfg : EssayRunConfig) (st : SD) (h : st.config = some cfg) :
    cfgUseResearch st = cfg.use_research := by
  simp [cfgUseResearch, h]

theorem foldStep_content_of_none (acc : HistAcc) (u : SD) (h : u.content = none) :
    (foldStep acc u).content_notes = acc.content_notes := by
  rw [foldStep_content_notes_eq, stepContent_of_none _ _ h, stepPlan_content_notes]

theorem foldStep_content_of_some (acc : HistAcc) (u : SD) (cs : List String)
    (h : u.content = some cs) : (foldStep acc u).content_notes = cs := by
  rw [foldStep_content_notes_eq, stepContent_of_some _ _ cs h]

/-
With research disabled, the cycle performs no `run_tavily_search` call and
every content update re-emits the unchanged note sequence.
-/
theorem fold_cyc_research_off (prov : Provider) (cfg : EssayRunConfig)
    (hoff : cfg.use_research = false) :
    ∀ (d k : Nat) (st : SD) (acc : HistAcc) (cs : List String),
      st.config = some cfg → st.content = some cs → acc.content_notes = cs →
      (foldChunks acc ((cyc prov d k st).map Step.update)).content_notes = cs ∧
      ((cyc prov d k st).map Step.calls).sum = 0 := by
  intro d
  induction d with
  | zero =>
    intro k st acc cs hcfg hcnt hacc
    rw [cyc]
    simp only [List.map_cons, List.map_nil, foldChunks_cons, foldChunks_nil, List.sum_cons,
      List.sum_nil]
    exact ⟨by rw [foldStep_content_of_none acc _ (generationNode_content prov k st)]; exact hacc,
      rfl⟩
  | succ d ih =>
    intro k st acc cs hcfg hcnt hacc
    rw [cyc]
    have hst2cfg : (applyUpdate (applyUpdate st (generationNode prov k st))
        (reflectionNode prov k (applyUpdate st (generationNode prov k st)))).config = some cfg := by
      simp [hcfg]
    have hst2cnt : (applyUpdate (applyUpdate st (generationNode prov k st))
        (reflectionNode prov k (applyUpdate st (generationNode prov k st)))).content = some cs := by
      simp [hcnt]
    have hoff2 : cfgUseResearch (applyUpdate (applyUpdate st (generationNode prov k st))
        (reflectionNode prov k (applyUpdate st (generationNode prov k st)))) = false := by
      rw [cfgUseResearch_some cfg _ hst2cfg, hoff]
    have hrc := researchCritiqueNode_research_off prov k
      (applyUpdate (applyUpdate st (generationNode prov k st))
        (reflectionNode prov k (applyUpdate st (generationNode prov k st)))) hoff2
    rw [hrc]
    simp only [List.map_cons, foldChunks_cons, List.sum_cons]
    rw [hst2cnt]
    have hstep1 := foldStep_content_of_none acc _ (generationNode_content prov k st)
    have hstep2 := foldStep_content_of_none (foldStep acc (generationNode prov k st)) _
      (reflectionNode_content prov k (applyUpdate st (generationNode prov k st)))
    have hstep3 := foldStep_content_of_some
      (foldStep (foldStep acc (generationNode prov k st))
        (reflectionNode prov k (applyUpdate st (generationNode prov k st))))
      { content := some ((some cs).getD []) } ((some cs).getD []) rfl
    have hih := ih (k + 1)
      (applyUpdate (applyUpdate (applyUpdate st (generationNode prov k st))
        (reflectionNode prov k (applyUpdate st (generationNode prov k st))))
        { content := some ((some cs).getD []) })
      (foldStep (foldStep (foldStep acc (generationNode prov k st))
        (reflectionNode prov k (applyUpdate st (generationNode prov k st))))
        { content := some ((some cs).getD []) })
      cs (by simp [hcfg]) (by simp) (by rw [hstep3]; rfl)
    refine ⟨hih.1, ?_⟩
    rw [hih.2]

/-
Run-level consequence of disabling research: no `run_tavily_search` call is
ever made and the extracted note sequence stays empty.
-/
theorem run_research_off (prov : Provider) (cfg : EssayRunConfig)
    (hoff : cfg.use_research = false) :
    totalSearchCalls prov cfg = 0 ∧
    (foldChunks {} ((runSteps prov cfg).map Step.update)).content_notes = [] := by
  have hst1cfg : (applyUpdate (initialState cfg) (planNode prov (initialState cfg))).config
      = some cfg := by
    simp [initialState]
  have hoff1 : cfgUseResearch (applyUpdate (initialState cfg) (planNode prov (initialState cfg)))
      = false := by
    rw [cfgUseResearch_some cfg _ hst1cfg, hoff]
  have hrp := researchPlanNode_research_off prov
    (applyUpdate (initialState cfg) (planNode prov (initialState cfg))) hoff1
  have hst1cnt : (applyUpdate (initialState cfg) (planNode prov (initialState cfg))).content
      = some [] := by
    simp [initialState]
  have hsaccfg : (stateAfterResearch prov cfg).config = some cfg := by
    simp [stateAfterResearch, initialState]
  have hsaccnt : (stateAfterResearch prov cfg).content = some [] := by
    unfold stateAfterResearch
    rw [applyUpdate_content, hrp]
    rw [hst1cnt]
    rfl
  constructor
  · unfold totalSearchCalls
    rw [runSteps_eq, hrp]
    simp only [List.map_cons, List.sum_cons]
    have hcyc := (fold_cyc_research_off prov cfg hoff (cfg.max_revisions - 1) 0
      (stateAfterResearch prov cfg) {} [] hsaccfg hsaccnt rfl).2
    rw [hcyc]
  · rw [runSteps_eq]
    simp only [List.map_cons, foldChunks_cons]
    have hacc1 : (foldStep {} (planNode prov (initialState cfg))).content_notes = [] :=
      foldStep_content_of_none {} _ (planNode_content prov (initialState cfg))
    have hupd : ((researchPlanNode prov (applyUpdate (initialState cfg)
        (planNode prov (initialState cfg)))).1).content = some [] := by
      rw [hrp, hst1cnt]
      rfl
    have hacc2 := foldStep_content_of_some (foldStep {} (planNode prov (initialState cfg)))
      _ [] hupd
    exact (fold_cyc_research_off prov cfg hoff (cfg.max_revisions - 1) 0
      (stateAfterResearch prov cfg) _ [] hsaccfg hsaccnt hacc2).1

theorem draftList_length (prov : Provider) : ∀ k n, (draftList prov k n).length = n := by
  intro k n
  induction n generalizing k with
  | zero => rfl
  | succ n ih =>
    rw [draftList]
    simp [ih]

theorem critList_length (prov : Provider) : ∀ k n, (critList prov k n).length = n := by
  intro k n
  induction n generalizing k with
  | zero => rfl
  | succ n ih =>
    rw [critList]
    simp [ih]

/- The extracted histories of the batched run coincide with the streamed fold. -/
theorem runEssay_hist (prov : Provider) (cfg : EssayRunConfig) :
    (runEssay prov cfg).drafts
        = (foldChunks {} ((runSteps prov cfg).map Step.update)).drafts ∧
    (runEssay prov cfg).critiques
        = (foldChunks {} ((runSteps prov cfg).map Step.update)).critiques ∧
    (runEssay prov cfg).plan
        = (foldChunks {} ((runSteps prov cfg).map Step.update)).plan ∧
    (runEssay prov cfg).content_notes
        = (foldChunks {} ((runSteps prov cfg).map Step.update)).content_notes :=
  ⟨congrArg HistAcc.drafts (runFold_values_eq_updates prov cfg),
   congrArg HistAcc.critiques (runFold_values_eq_updates prov cfg),
   congrArg HistAcc.plan (runFold_values_eq_updates prov cfg),
   congrArg HistAcc.content_notes (runFold_values_eq_updates prov cfg)⟩

/- A deterministic stub provider with non-blank, consecutively distinct responses. -/
def stubProvider : Provider :=
  { planResp := "PLAN"
    draftAt := fun k => if k = 0 then "DRAFT0" else "DRAFT1"
    critiqueAt := fun k => if k = 0 then "CRIT0" else "CRIT1"
    planQueries := []
    critiqueQueriesAt := fun _ => []
    searchNotes := fun _ _ => [] }

/- A stub provider whose generate responses are whitespace-only. -/
def blankProvider : Provider :=
  { stubProvider with draftAt := fun _ => " " }

/- A research-disabled run configuration with the given revision bound. -/
def cfgFor (n : Nat) : EssayRunConfig :=
  { task := "essay-task", use_research := false, max_revisions := n }

/--
C1 counterexample: with `max_revisions = 1` and a stub provider whose
successive drafts are non-blank and pairwise distinct, the terminal result
holds exactly 1 draft and 0 critiques — not 2 drafts and 1 critique as the
claim (`N+1` drafts, `N` critiques) predicts: `should_continue` compares the
already incremented counter against the bound, so the k-th generate leaves
the counter at `k+1` and the run stops after `N` generate calls.
-/
theorem c1_counterexample :
    stubProvider.draftAt 0 ≠ stubProvider.draftAt 1 ∧
    pyStrip (stubProvider.draftAt 0) ≠ "" ∧
    pyStrip (stubProvider.draftAt 1) ≠ "" ∧
    (runEssay stubProvider (cfgFor 1)).drafts.length = 1 ∧
    (runEssay stubProvider (cfgFor 1)).critiques.length = 0 := by
  have h := runEssay_unfold stubProvider (cfgFor 1)
  rw [runSteps_eq] at h
  rw [h]
  decide

/--
C1 (amended): for every run with `max_revisions = N ≥ 1` whose provider
returns non-blank drafts that differ between consecutive generate calls, and
non-blank critiques that differ between consecutive reflect calls, the
terminal result of both invocation modes contains exactly `N` drafts and
exactly `N - 1` critiques (the revision counter starts at 1, is incremented
by each generate call, and the run continues only while the incremented
counter is still `≤ N`).
-/
theorem c1_amended (prov : Provider) (cfg : EssayRunConfig) (tid : String) (N : Nat)
    (hN : cfg.max_revisions = N) (hN1 : 1 ≤ N)
    (hb : ∀ j, j < N → pyStrip (prov.draftAt j) ≠ "")
    (hd : ∀ j, j + 1 < N → prov.draftAt j ≠ prov.draftAt (j + 1))
    (hcb : ∀ j, j + 1 < N → pyStrip (prov.critiqueAt j) ≠ "")
    (hcd : ∀ j, j + 2 < N → prov.critiqueAt j ≠ prov.critiqueAt (j + 1)) :
    (runEssay prov cfg).drafts.length = N ∧
    (runEssay prov cfg).critiques.length = N - 1 ∧
    (runEssayStream prov cfg tid).drafts.length = N ∧
    (runEssayStream prov cfg tid).critiques.length = N - 1 := by
  have hstream := streamFold_eq prov cfg
    (fun j hj => hb j (by omega))
    (fun j hj => hd j (by omega))
    (fun j hj => hcb j (by omega))
    (fun j hj => hcd j (by omega))
  have hdl : (foldChunks {} ((runSteps prov cfg).map Step.update)).drafts.length = N := by
    rw [hstream.1, draftList_length]
    omega
  have hcl : (foldChunks {} ((runSteps prov cfg).map Step.update)).critiques.length = N - 1 := by
    rw [hstream.2, critList_length]
    omega
  have hh := runEssay_hist prov cfg
  refine ⟨?_, ?_, hdl, hcl⟩
  · rw [hh.1]
    exact hdl
  · rw [hh.2.1]
    exact hcl

/-- C1 witness: the amended count at `N = 1` with the stub provider. -/
theorem c1_witness :
    (runEssay stubProvider (cfgFor 1)).drafts.length = 1 ∧
    (runEssay stubProvider (cfgFor 1)).critiques.length = 1 - 1 ∧
    (runEssayStream stubProvider (cfgFor 1) "thread-0").drafts.length = 1 ∧
    (runEssayStream stubProvider (cfgFor 1) "thread-0").critiques.length = 1 - 1 :=
  c1_amended stubProvider (cfgFor 1) "thread-0" 1 rfl le_rfl
    (fun j hj => by
      have hj0 : j = 0 := by omega
      subst hj0
      decide)
    (fun j hj => absurd hj (by omega))
    (fun j hj => absurd hj (by omega))
    (fun j hj => absurd hj (by omega))

/--
C2 counterexample: with identical configuration, identical deterministic
provider responses and even an identical thread id, the batched and the
streamed run return different `EssayRunResult` values: the streamed mode
synthesizes its own final-state dict (with a `thread_id` key and a
re-computed `critique`/`revision_number`), while the batched mode returns the
last streamed full-state chunk.
-/
theorem c2_counterexample :
    runEssay stubProvider (cfgFor 1) ≠ runEssayStream stubProvider (cfgFor 1) "thread-0" := by
  have h1 := runEssay_unfold stubProvider (cfgFor 1)
  have h2 := runEssayStream_unfold stubProvider (cfgFor 1) "thread-0"
  rw [runSteps_eq] at h1 h2
  rw [h1, h2]
  decide

/--
C2 (amended): for every configuration and every deterministic provider, the
batched and the streamed invocation agree on the extracted plan, the ordered
note sequence, the ordered draft history and the ordered critique history;
only the `final_state` dicts differ (the streamed one is synthesized and
carries the thread id).
-/
theorem c2_amended (prov : Provider) (cfg : EssayRunConfig) (tid : String) :
    (runEssay prov cfg).plan = (runEssayStream prov cfg tid).plan ∧
    (runEssay prov cfg).content_notes = (runEssayStream prov cfg tid).content_notes ∧
    (runEssay prov cfg).drafts = (runEssayStream prov cfg tid).drafts ∧
    (runEssay prov cfg).critiques = (runEssayStream prov cfg tid).critiques :=
  ⟨congrArg HistAcc.plan (runFold_values_eq_updates prov cfg),
   congrArg HistAcc.content_notes (runFold_values_eq_updates prov cfg),
   congrArg HistAcc.drafts (runFold_values_eq_updates prov cfg),
   congrArg HistAcc.critiques (runFold_values_eq_updates prov cfg)⟩

/- The C3 configuration: Custom length mode with no target word count. -/
def customNoTarget : EssayRunConfig :=
  { task := "t", length_mode := "Custom word count", target_words := none }

/--
C3 counterexample: constructing `EssayRunConfig` with
`length_mode = "Custom word count"` and `target_words = None` succeeds —
`core/schemas.py` declares no validator — so the construction does not fail
and the claimed invariant (target present iff mode is Custom) is violated by
a successfully constructed value.
-/
theorem c3_counterexample :
    mkEssayRunConfig customNoTarget = Except.ok customNoTarget ∧
    ¬ (customNoTarget.target_words.isSome ↔
        customNoTarget.length_mode = "Custom word count") := by
  refine ⟨rfl, ?_⟩
  decide

/--
C3 (amended): construction with Custom length mode and no target word count
succeeds (pydantic only checks the `length_mode` literal), and the length
policy then falls back to the generic instruction
"Choose an appropriate length for the topic.".
-/
theorem c3_amended (c : EssayRunConfig) (h1 : c.length_mode = "Custom word count")
    (h2 : c.target_words = none) :
    mkEssayRunConfig c = Except.ok c ∧
    build_length_instruction c.length_mode c.target_words
      = "Choose an appropriate length for the topic." := by
  constructor
  · unfold mkEssayRunConfig
    have hmem : c.length_mode ∈ lengthModeValues := by
      rw [h1]
      decide
    rw [if_pos hmem]
  · rw [h1, h2]
    rfl

/-- C3 witness: the amended statement at the concrete Custom/no-target config. -/
theorem c3_witness :
    mkEssayRunConfig customNoTarget = Except.ok customNoTarget ∧
    build_length_instruction customNoTarget.length_mode customNoTarget.target_words
      = "Choose an appropriate length for the topic." :=
  c3_amended customNoTarget rfl rfl

/--
C4 counterexample: with `max_revisions = 0` and a provider whose single
generate response is whitespace-only, the terminal draft history is empty,
not a one-element list: the extraction loop skips blank drafts, so "exactly
one draft" does not hold for every run.
-/
theorem c4_counterexample :
    (cfgFor 0).max_revisions = 0 ∧
    (runEssay blankProvider (cfgFor 0)).drafts.length = 0 ∧
    (runEssay blankProvider (cfgFor 0)).drafts.length ≠ 1 := by
  have h := runEssay_unfold blankProvider (cfgFor 0)
  rw [runSteps_eq] at h
  rw [h]
  decide

/--
C4 (amended): for every run with `max_revisions = 0`, the run performs
exactly one generate step, and — provided the single generated draft is
non-blank (blank drafts are filtered from history) — the terminal result of
both invocation modes contains exactly that one draft and zero critiques.
-/
theorem c4_amended (prov : Provider) (cfg : EssayRunConfig) (tid : String)
    (h0 : cfg.max_revisions = 0) (hb : pyStrip (prov.draftAt 0) ≠ "") :
    ((runSteps prov cfg).filter (fun s => s.node = "generate")).length = 1 ∧
    (runEssay prov cfg).drafts = [prov.draftAt 0] ∧
    (runEssay prov cfg).critiques = [] ∧
    (runEssayStream prov cfg tid).drafts = [prov.draftAt 0] ∧
    (runEssayStream prov cfg tid).critiques = [] := by
  have hgen : ((runSteps prov cfg).filter (fun s => s.node = "generate")).length
      = (revList 1 (max cfg.max_revisions 1)).length := by
    rw [← runSteps_gen_revisions prov cfg, List.length_map]
  have hone : ((runSteps prov cfg).filter (fun s => s.node = "generate")).length = 1 := by
    rw [hgen, h0]
    rfl
  have hstream := streamFold_eq prov cfg
    (fun j hj => by
      have hj0 : j = 0 := by omega
      subst hj0
      exact hb)
    (fun j hj => absurd hj (by omega))
    (fun j hj => absurd hj (by omega))
    (fun j hj => absurd hj (by omega))
  have hds : (foldChunks {} ((runSteps prov cfg).map Step.update)).drafts = [prov.draftAt 0] := by
    rw [hstream.1, h0]
    rfl
  have hcs : (foldChunks {} ((runSteps prov cfg).map Step.update)).critiques = [] := by
    rw [hstream.2, h0]
    rfl
  have hh := runEssay_hist prov cfg
  refine ⟨hone, ?_, ?_, hds, hcs⟩
  · rw [hh.1]
    exact hds
  · rw [hh.2.1]
    exact hcs

/-- C4 witness: the amended statement at the stub provider with `max_revisions = 0`. -/
theorem c4_witness :
    ((runSteps stubProvider (cfgFor 0)).filter (fun s => s.node = "generate")).length = 1 ∧
    (runEssay stubProvider (cfgFor 0)).drafts = [stubProvider.draftAt 0] ∧
    (runEssay stubProvider (cfgFor 0)).critiques = [] ∧
    (runEssayStream stubProvider (cfgFor 0) "thread-0").drafts = [stubProvider.draftAt 0] ∧
    (runEssayStream stubProvider (cfgFor 0) "thread-0").critiques = [] :=
  c4_amended stubProvider (cfgFor 0) "thread-0" rfl (by decide)

/--
C5: every run terminates. The trace of a run is a total function of the
configuration and provider whose length is exactly `3 * max(max_revisions, 1)`
(planner, research_plan, then `max(max_revisions, 1)` generate calls with a
reflect/research_critique pair between consecutive ones), and the generate
steps write the strictly increasing revision counters
`some 2, some 3, ...` — each generate increments the counter by one while the
bound `max_revisions` carried in the state never changes, and the conditional
step ends the run as soon as the counter exceeds the bound.
-/
theorem c5_termination (prov : Provider) (cfg : EssayRunConfig) :
    (runSteps prov cfg).length = 3 * max cfg.max_revisions 1 ∧
    (((runSteps prov cfg).filter (fun s => s.node = "generate")).map
        (fun s => s.update.revision_number)) = revList 1 (max cfg.max_revisions 1) :=
  ⟨runSteps_length prov cfg, runSteps_gen_revisions prov cfg⟩

/--
C6: in both invocation modes the extracted draft history and critique history
never contain two adjacent equal entries (a new value is appended only when
it differs from the most recently appended one), and folding two chunks that
carry the identical draft text produces a one-element history.
-/
theorem c6_distinct_accumulation (prov : Provider) (cfg : EssayRunConfig) (tid : String) :
    (runEssay prov cfg).drafts.Chain' (· ≠ ·) ∧
    (runEssay prov cfg).critiques.Chain' (· ≠ ·) ∧
    (runEssayStream prov cfg tid).drafts.Chain' (· ≠ ·) ∧
    (runEssayStream prov cfg tid).critiques.Chain' (· ≠ ·) ∧
    (foldChunks {} [{ draft := some "D" }, { draft := some "D" }]).drafts = ["D"] := by
  have hbat := ChainInv_foldChunks
    (initialState cfg :: valuesStates (initialState cfg) (runSteps prov cfg)) {} ChainInv_empty
  have hstr := ChainInv_foldChunks ((runSteps prov cfg).map Step.update) {} ChainInv_empty
  exact ⟨hbat.1, hbat.2.2.1, hstr.1, hstr.2.2.1, by decide⟩

/--
C7: with research disabled, no `run_tavily_search` call (and hence no search
provider call) is ever made during the run, the terminal note sequence of
both invocation modes is empty, and both research nodes return a pass-through
update that re-emits the unchanged note sequence.
-/
theorem c7_research_disabled (prov : Provider) (cfg : EssayRunConfig) (tid : String)
    (hoff : cfg.use_research = false) :
    totalSearchCalls prov cfg = 0 ∧
    (runEssay prov cfg).content_notes = [] ∧
    (runEssayStream prov cfg tid).content_notes = [] ∧
    (∀ st, st.config = some cfg →
      researchPlanNode prov st = ({ content := some (st.content.getD []) }, 0)) ∧
    (∀ st k, st.config = some cfg →
      researchCritiqueNode prov k st = ({ content := some (st.content.getD []) }, 0)) := by
  have h := run_research_off prov cfg hoff
  refine ⟨h.1, ?_, h.2, ?_, ?_⟩
  · have hc := congrArg HistAcc.content_notes (runFold_values_eq_updates prov cfg)
    exact hc.trans h.2
  · intro st hcfg
    exact researchPlanNode_research_off prov st
      (by rw [cfgUseResearch_some cfg st hcfg, hoff])
  · intro st k hcfg
    exact researchCritiqueNode_research_off prov k st
      (by rw [cfgUseResearch_some cfg st hcfg, hoff])

/-- C7 witness: a concrete research-disabled run makes zero search calls and has no notes. -/
theorem c7_witness :
    totalSearchCalls stubProvider (cfgFor 2) = 0 ∧
    (runEssay stubProvider (cfgFor 2)).content_notes = [] ∧
    (runEssayStream stubProvider (cfgFor 2) "thread-0").content_notes = [] ∧
    researchPlanNode stubProvider (initialState (cfgFor 2))
      = ({ content := some ((initialState (cfgFor 2)).content.getD []) }, 0) :=
  ⟨(c7_research_disabled stubProvider (cfgFor 2) "thread-0" rfl).1,
   (c7_research_disabled stubProvider (cfgFor 2) "thread-0" rfl).2.1,
   (c7_research_disabled stubProvider (cfgFor 2) "thread-0" rfl).2.2.1,
   (c7_research_disabled stubProvider (cfgFor 2) "thread-0" rfl).2.2.2.1
     (initialState (cfgFor 2)) rfl⟩

/--
C8: an empty or whitespace-only query makes the search wrapper return the
empty note list for every in-range `max_results`, for every provider — the
result does not depend on the provider, so no provider call is made, and no
error is raised.
-/
theorem c8_empty_query (provider : String → Int → Except String TavilyResponse)
    (query : String) (m : Int) (hq : pyStrip query = "") (_h1 : 1 ≤ m) (_h2 : m ≤ 10) :
    run_tavily_search provider query m = Except.ok [] := by
  unfold run_tavily_search
  simp [hq]

/-- C8 witness: the empty query with a valid `max_results` of 3. -/
theorem c8_witness :
    run_tavily_search (fun _ _ => Except.ok ({} : TavilyResponse)) "" 3 = Except.ok [] :=
  c8_empty_query (fun _ _ => Except.ok ({} : TavilyResponse)) "" 3 (by decide) (by decide)
    (by decide)

/--
C9: a non-empty query with `max_results` outside `[1, 10]` fails with the
`InvalidArgument` (Python `ValueError`) error, for every provider — the
result does not depend on the provider, so the failure happens before any
network call.
-/
theorem c9_invalid_max_results (provider : String → Int → Except String TavilyResponse)
    (query : String) (m : Int) (hq : pyStrip query ≠ "") (hm : m < 1 ∨ m > 10) :
    run_tavily_search provider query m
      = Except.error (SearchErr.invalidArgument
          "max_results must be an integer between 1 and 10.") := by
  unfold run_tavily_search
  simp only []
  rw [if_neg hq, if_pos hm]

/-- C9 witness: `search("x", 0)` and `search("x", 11)` both fail with InvalidArgument. -/
theorem c9_witness :
    run_tavily_search (fun _ _ => Except.ok ({} : TavilyResponse)) "x" 0
      = Except.error (SearchErr.invalidArgument
          "max_results must be an integer between 1 and 10.") ∧
    run_tavily_search (fun _ _ => Except.ok ({} : TavilyResponse)) "x" 11
      = Except.error (SearchErr.invalidArgument
          "max_results must be an integer between 1 and 10.") :=
  ⟨c9_invalid_max_results (fun _ _ => Except.ok ({} : TavilyResponse)) "x" 0 (by decide)
      (by decide),
   c9_invalid_max_results (fun _ _ => Except.ok ({} : TavilyResponse)) "x" 11 (by decide)
      (by decide)⟩

/--
C10: the empty-query check precedes the `max_results` range validation: an
empty or whitespace-only query returns the empty list for every
`max_results`, in particular for out-of-range values, and for every provider.
-/
theorem c10_empty_query_precedes_validation
    (provider : String → Int → Except String TavilyResponse) (query : String) (m : Int)
    (hq : pyStrip query = "") :
    run_tavily_search provider query m = Except.ok [] := by
  unfold run_tavily_search
  simp [hq]

/-- C10 witness: `run_tavily_search("", 0)` and `run_tavily_search("  ", 11)` return `[]`. -/
theorem c10_witness :
    run_tavily_search (fun _ _ => Except.ok ({} : TavilyResponse)) "" 0 = Except.ok [] ∧
    run_tavily_search (fun _ _ => Except.ok ({} : TavilyResponse)) "  " 11 = Except.ok [] :=
  ⟨c10_empty_query_precedes_validation (fun _ _ => Except.ok ({} : TavilyResponse)) "" 0
      (by decide),
   c10_empty_query_precedes_validation (fun _ _ => Except.ok ({} : TavilyResponse)) "  " 11
      (by decide)⟩
